import Mathlib

/-!
Verification of the command-and-control simulation repository.

The C++ sources under src/ are shallowly embedded: every class becomes a
Lean structure, every member function a pure Lean function (stateful code
passes its state explicitly), machine doubles become exact rationals (the
repository never does arithmetic on them, it only stores, copies and
compares them), and the process-wide monotonic clock and the process-wide
atomic command counter become explicit Nat parameters threaded through the
operations that read them.

Fallible C++ code is embedded with the Res result type below, which
distinguishes a normal return, a thrown C++ exception, and undefined
behavior (an assertion failure inside the JSON library).  The JSON library
is third-party; only the operations the repository uses are modelled, each
following the library's documented semantics:
  - the const overload of the bracket accessor has undefined behavior when
    the key is missing or the value is not an object (it is an assertion,
    not an exception);
  - the mutable bracket accessor on a copied value inserts null for a
    missing key on an object or null, and throws on any other kind;
  - the value accessor with a default returns the default when the key is
    missing, converts (possibly throwing) when it is present, and throws
    when the receiver is not an object;
  - numeric conversions accept numbers and booleans and throw otherwise;
    a conversion to an integer truncates toward zero;
  - string conversions accept only strings and throw otherwise;
  - enum casts store the raw integer without any range check, so enum
    fields are embedded as structures wrapping an unconstrained Int.
-/

namespace ccsim

/-- Outcome of running a piece of C++ code: normal value, thrown
exception, or undefined behavior / assertion failure. -/
inductive Res (α : Type) where
  | crash : Res α
  | thrown : Res α
  | ok : α → Res α
deriving DecidableEq, Repr

def Res.bind {α β : Type} : Res α → (α → Res β) → Res β
  | .crash, _ => .crash
  | .thrown, _ => .thrown
  | .ok a, f => f a

/-- JSON documents, with numbers as exact rationals. -/
inductive Json where
  | null : Json
  | bool : Bool → Json
  | num : Rat → Json
  | str : String → Json
  | arr : List Json → Json
  | obj : List (String × Json) → Json

/-- First value stored under the key, when the document is an object. -/
def Json.find? : Json → String → Option Json
  | .obj kvs, k => kvs.lookup k
  | _, _ => none

/-- The library's contains: false on non-objects. -/
def Json.containsKey (j : Json) (k : String) : Bool :=
  (j.find? k).isSome

/-- The const bracket accessor: undefined behavior (assertion) when the
receiver is not an object holding the key. -/
def Json.atConst (j : Json) (k : String) : Res Json :=
  match j.find? k with
  | some v => .ok v
  | none => .crash

/-- The mutable bracket accessor on a copied value: inserts (and returns)
null for a missing key on an object or null, throws on other kinds. -/
def Json.atMut (j : Json) (k : String) : Res Json :=
  match j with
  | .obj kvs => .ok ((kvs.lookup k).getD .null)
  | .null => .ok .null
  | _ => .thrown

/-- Conversion to a C++ string: throws unless the value is a string. -/
def Json.toStr : Json → Res String
  | .str s => .ok s
  | _ => .thrown

/-- Conversion to a C++ integer (also used for enum casts): numbers
truncate toward zero, booleans convert to 0 or 1, all else throws. -/
def Json.toInt : Json → Res Int
  | .num q => .ok (q.num.tdiv q.den)
  | .bool b => .ok (if b then 1 else 0)
  | _ => .thrown

/-- Conversion to a C++ double, embedded as an exact rational. -/
def Json.toNum : Json → Res Rat
  | .num q => .ok q
  | .bool b => .ok (if b then 1 else 0)
  | _ => .thrown

/-- The value accessor with a JSON-typed default (no conversion). -/
def Json.valueJson (j : Json) (k : String) (d : Json) : Res Json :=
  match j with
  | .obj kvs => .ok ((kvs.lookup k).getD d)
  | _ => .thrown

/-- The value accessor with a double default. -/
def Json.valueNum (j : Json) (k : String) (d : Rat) : Res Rat :=
  match j with
  | .obj kvs =>
    match kvs.lookup k with
    | some v => v.toNum
    | none => .ok d
  | _ => .thrown

/-- The value accessor with a string default. -/
def Json.valueStr (j : Json) (k : String) (d : String) : Res String :=
  match j with
  | .obj kvs =>
    match kvs.lookup k with
    | some v => v.toStr
    | none => .ok d
  | _ => .thrown

/-! ### Domain model: unit.h  -/

/-- UnitId: opaque string identifier (src/unnamed/part_003, unit.h). -/
structure UnitId where
  value : String
deriving DecidableEq, Repr

/-- UnitStatus is a C++ enum class over int; a raw cast can store any
integer, so it is embedded as a wrapped unconstrained Int.
IDLE=0, MOVING=1, BUSY=2, ERROR=3, OFFLINE=4. -/
structure UnitStatus where
  val : Int
deriving DecidableEq, Repr

def UnitStatus.IDLE : UnitStatus := ⟨0⟩
def UnitStatus.MOVING : UnitStatus := ⟨1⟩
def UnitStatus.BUSY : UnitStatus := ⟨2⟩
def UnitStatus.ERROR : UnitStatus := ⟨3⟩
def UnitStatus.OFFLINE : UnitStatus := ⟨4⟩

/-- Position: three doubles, embedded as exact rationals. -/
structure Position where
  x : Rat
  y : Rat
  z : Rat
deriving DecidableEq, Repr

/-- Unit (unit.h): identity, position, status, last-update time (ms). -/
structure Unit where
  id : UnitId
  position : Position
  status : UnitStatus
  last_update : Nat
deriving DecidableEq, Repr

/-- Unit::set_position: writes the position and refreshes the timestamp;
the current clock is passed explicitly. -/
def Unit.set_position (u : Unit) (pos : Position) (now : Nat) : Unit :=
  { u with position := pos, last_update := now }

/-- Unit::set_status: writes the status and refreshes the timestamp. -/
def Unit.set_status (u : Unit) (status : UnitStatus) (now : Nat) : Unit :=
  { u with status := status, last_update := now }

/-! ### Domain model: command.h  -/

/-- CommandType: enum class over int, MOVE=0, REPORT=1, ALERT=2,
SHUTDOWN=3; embedded as a wrapped unconstrained Int because decode casts
raw integers into it. -/
structure CommandType where
  val : Int
deriving DecidableEq, Repr

def CommandType.MOVE : CommandType := ⟨0⟩
def CommandType.REPORT : CommandType := ⟨1⟩
def CommandType.ALERT : CommandType := ⟨2⟩
def CommandType.SHUTDOWN : CommandType := ⟨3⟩

/-- Command (command.h): generated id, target, type, payload, creation
timestamp (ms on the steady clock). -/
structure Command where
  id : String
  target_id : UnitId
  type : CommandType
  payload : Json
  timestamp : Nat

/-- Command::generate_id: "cmd_" followed by the decimal value of the
process-wide atomic counter (the counter value is passed explicitly). -/
def generate_id (counter : Nat) : String :=
  "cmd_" ++ Nat.repr counter

/-- The Command constructor: draws a fresh id from the process-wide
counter (a 64-bit atomic, hence the wrap on increment) and stamps the
current time.  Returns the command and the new counter value. -/
def Command.create (target_id : UnitId) (type : CommandType) (payload : Json)
    (now counter : Nat) : Command × Nat :=
  (⟨generate_id counter, target_id, type, payload, now⟩, (counter + 1) % 2 ^ 64)

/-- Command::to_json. -/
def Command.to_json (c : Command) : Json :=
  .obj [("id", .str c.id), ("target_id", .str c.target_id.value),
        ("type", .num (c.type.val : Rat)), ("payload", c.payload),
        ("timestamp", .num (c.timestamp : Rat))]

/-- Command::from_json: null (modelled as ok none) when target_id or type
is missing, otherwise builds a fresh Command (fresh id, fresh timestamp)
from the decoded fields.  Returns the possibly-new counter as well. -/
def Command.from_json (j : Json) (now counter : Nat) : Res (Option Command × Nat) :=
  if !(j.containsKey "target_id") || !(j.containsKey "type") then
    .ok (none, counter)
  else
    (j.atConst "target_id").bind fun tj =>
    tj.toStr.bind fun ts =>
    (j.atConst "type").bind fun yj =>
    yj.toInt.bind fun ty =>
    (j.valueJson "payload" .null).bind fun pl =>
    let p := Command.create ⟨ts⟩ ⟨ty⟩ pl now counter
    .ok (some p.1, p.2)

/-- MoveCommand constructor: payload carries the destination. -/
def MoveCommand.create (target_id : UnitId) (destination : Position)
    (now counter : Nat) : Command × Nat :=
  Command.create target_id CommandType.MOVE
    (.obj [("destination",
            .obj [("x", .num destination.x), ("y", .num destination.y),
                  ("z", .num destination.z)])]) now counter

/-- ReportCommand constructor: default (null) payload. -/
def ReportCommand.create (target_id : UnitId) (now counter : Nat) : Command × Nat :=
  Command.create target_id CommandType.REPORT .null now counter

/-- AlertCommand constructor: payload carries message and severity. -/
def AlertCommand.create (target_id : UnitId) (message : String) (severity : Int)
    (now counter : Nat) : Command × Nat :=
  Command.create target_id CommandType.ALERT
    (.obj [("message", .str message), ("severity", .num (severity : Rat))]) now counter

/-! ### Domain model: telemetry (src/unnamed/part_002)  -/

/-- TelemetryData: a unit's self-reported state. -/
structure TelemetryData where
  unit_id : UnitId
  position : Position
  status : UnitStatus
  battery_level : Rat
  cpu_usage : Rat
  memory_usage : Rat
  last_command_id : String
  timestamp : Int

/-- The TelemetryData constructor: required fields plus the defaults
battery 100, cpu 0, memory 0, empty last command id, current time. -/
def TelemetryData.create (id : UnitId) (pos : Position) (stat : UnitStatus)
    (now : Int) : TelemetryData :=
  ⟨id, pos, stat, 100, 0, 0, "", now⟩

/-- TelemetryData::to_json. -/
def TelemetryData.to_json (d : TelemetryData) : Json :=
  .obj [("unit_id", .str d.unit_id.value),
        ("position", .obj [("x", .num d.position.x), ("y", .num d.position.y),
                           ("z", .num d.position.z)]),
        ("status", .num (d.status.val : Rat)),
        ("battery_level", .num d.battery_level),
        ("cpu_usage", .num d.cpu_usage),
        ("memory_usage", .num d.memory_usage),
        ("last_command_id", .str d.last_command_id),
        ("timestamp", .num (d.timestamp : Rat))]

/-- TelemetryData::from_json.  The three required fields are read with the
const bracket accessor (undefined behavior when missing); the optional
fields fall back to their defaults.  The position subdocument is copied
into a mutable local before its fields are read, so a malformed position
throws rather than crashing. -/
def TelemetryData.from_json (j : Json) (now : Int) : Res TelemetryData :=
  (j.atConst "unit_id").bind fun uj =>
  uj.toStr.bind fun uid =>
  (j.atConst "position").bind fun pos =>
  ((pos.atMut "x").bind Json.toNum).bind fun px =>
  ((pos.atMut "y").bind Json.toNum).bind fun py =>
  ((pos.atMut "z").bind Json.toNum).bind fun pz =>
  (j.atConst "status").bind fun sj =>
  sj.toInt.bind fun st =>
  (j.valueNum "battery_level" 100).bind fun battery =>
  (j.valueNum "cpu_usage" 0).bind fun cpu =>
  (j.valueNum "memory_usage" 0).bind fun mem =>
  (j.valueStr "last_command_id" "").bind fun lcid =>
  (if j.containsKey "timestamp" then (j.atConst "timestamp").bind Json.toInt
   else .ok now).bind fun ts =>
  .ok ⟨⟨uid⟩, ⟨px, py, pz⟩, ⟨st⟩, battery, cpu, mem, lcid, ts⟩

/-- TelemetryReport: envelope around TelemetryData. -/
structure TelemetryReport where
  data : TelemetryData

/-- TelemetryReport::to_json. -/
def TelemetryReport.to_json (r : TelemetryReport) : Json :=
  .obj [("type", .str "telemetry"), ("data", r.data.to_json)]

/-- TelemetryReport::from_json: null unless tagged "telemetry" with a data
field; then decodes the data subdocument. -/
def TelemetryReport.from_json (j : Json) (now : Int) : Res (Option TelemetryReport) :=
  (j.valueStr "type" "").bind fun tag =>
  if tag != "telemetry" || !(j.containsKey "data") then
    .ok none
  else
    (j.atConst "data").bind fun dj =>
    (TelemetryData.from_json dj now).bind fun d =>
    .ok (some ⟨d⟩)

/-! ### Wire protocol (src/unnamed/part_003, protocol_handler.cpp)  -/

/-- MessageType: enum class over int, COMMAND=0, TELEMETRY=1,
ACKNOWLEDGMENT=2, ERROR=3; embedded as a wrapped unconstrained Int. -/
structure MessageType where
  val : Int
deriving DecidableEq, Repr

def MessageType.COMMAND : MessageType := ⟨0⟩
def MessageType.TELEMETRY : MessageType := ⟨1⟩
def MessageType.ACKNOWLEDGMENT : MessageType := ⟨2⟩
def MessageType.ERROR : MessageType := ⟨3⟩

/-- ProtocolMessage: outer wire envelope. -/
structure ProtocolMessage where
  type : MessageType
  payload : String
deriving DecidableEq, Repr

/-- ProtocolMessage::to_json. -/
def ProtocolMessage.to_json (m : ProtocolMessage) : Json :=
  .obj [("type", .num (m.type.val : Rat)), ("payload", .str m.payload)]

/-- ProtocolMessage::from_json: null when type or payload is missing,
otherwise stores the raw integer cast and the payload string. -/
def ProtocolMessage.from_json (j : Json) : Res (Option ProtocolMessage) :=
  if !(j.containsKey "type") || !(j.containsKey "payload") then
    .ok none
  else
    (j.atConst "type").bind fun tj =>
    tj.toInt.bind fun ty =>
    (j.atConst "payload").bind fun pj =>
    pj.toStr.bind fun p =>
    .ok (some ⟨⟨ty⟩, p⟩)

/-- The result of running the JSON parser on the incoming wire string:
none when the parser threw a parse error, some document otherwise. -/
def Parsed := Option Json

/-- JsonProtocolHandler::deserialize_command: parse then decode, with a
catch-all turning any exception into a null result. -/
def JsonProtocolHandler.deserialize_command (parsed : Parsed) (now counter : Nat) :
    Res (Option Command × Nat) :=
  match parsed with
  | none => .ok (none, counter)
  | some j =>
    match Command.from_json j now counter with
    | .thrown => .ok (none, counter)
    | r => r

/-- JsonProtocolHandler::deserialize_telemetry: parse then decode, with a
catch-all turning any exception into a null result.  An assertion failure
inside the JSON library is not an exception and is not caught. -/
def JsonProtocolHandler.deserialize_telemetry (parsed : Parsed) (now : Int) :
    Res (Option TelemetryReport) :=
  match parsed with
  | none => .ok none
  | some j =>
    match TelemetryReport.from_json j now with
    | .thrown => .ok none
    | r => r

/-- JsonProtocolHandler::deserialize_message. -/
def JsonProtocolHandler.deserialize_message (parsed : Parsed) :
    Res (Option ProtocolMessage) :=
  match parsed with
  | none => .ok none
  | some j =>
    match ProtocolMessage.from_json j with
    | .thrown => .ok none
    | r => r

/-! ### Unit registry (registry.h, src/unnamed/part_000)  -/

/-- UnitRegistry: the process-wide map from unit id to unit, embedded as
an association list (the C++ hash map's iteration order is irrelevant to
the claims; keys are unique because registration overwrites). -/
structure UnitRegistry where
  units : List (UnitId × Unit)

/-- Insert-or-overwrite, mirroring bracket assignment on the hash map. -/
def assocPut (id : UnitId) (u : Unit) : List (UnitId × Unit) → List (UnitId × Unit)
  | [] => [(id, u)]
  | p :: rest => if p.1 = id then (id, u) :: rest else p :: assocPut id u rest

/-- Remove the entry found for the key, mirroring find-then-erase. -/
def assocDrop (id : UnitId) : List (UnitId × Unit) → List (UnitId × Unit)
  | [] => []
  | p :: rest => if p.1 = id then rest else p :: assocDrop id rest

/-- UnitRegistry::register_unit. -/
def UnitRegistry.register_unit (r : UnitRegistry) (u : Unit) : UnitRegistry :=
  ⟨assocPut u.id u r.units⟩

/-- UnitRegistry::unregister_unit: erases the entry when found, silent
no-op otherwise. -/
def UnitRegistry.unregister_unit (r : UnitRegistry) (id : UnitId) : UnitRegistry :=
  ⟨assocDrop id r.units⟩

/-- UnitRegistry::get_unit: the stored unit, or none when absent. -/
def UnitRegistry.get_unit (r : UnitRegistry) (id : UnitId) : Option Unit :=
  (r.units.find? fun p => p.1 = id).map (·.2)

/-- UnitRegistry::update_unit_status: looks the unit up and, when found,
mutates it through the shared pointer (embedded as replacing the entry
with the matching key); silent no-op when absent. -/
def UnitRegistry.update_unit_status (r : UnitRegistry) (id : UnitId)
    (status : UnitStatus) (now : Nat) : UnitRegistry :=
  match r.get_unit id with
  | none => r
  | some _ =>
    ⟨r.units.map fun p => if p.1 = id then (p.1, p.2.set_status status now) else p⟩

/-- UnitRegistry::update_unit_position: same shape as the status update. -/
def UnitRegistry.update_unit_position (r : UnitRegistry) (id : UnitId)
    (pos : Position) (now : Nat) : UnitRegistry :=
  match r.get_unit id with
  | none => r
  | some _ =>
    ⟨r.units.map fun p => if p.1 = id then (p.1, p.2.set_position pos now) else p⟩

/-! ### Observer bus (src/unnamed/part_001)

Subscribers are owned elsewhere and held by weak reference; a subscriber
is identified by the address of its owning control block, embedded as a
Nat.  Whether the owner has released the subscriber is external to the
bus, so notification takes the liveness predicate as a parameter. -/

/-- TelemetryObservable: the set of registered subscriber slots, embedded
as a duplicate-free list (hash-set insertion refuses duplicates). -/
structure TelemetryObservable where
  observers : List Nat

/-- TelemetryObservable::add_observer: hash-set insert. -/
def TelemetryObservable.add_observer (s : TelemetryObservable) (o : Nat) :
    TelemetryObservable :=
  if o ∈ s.observers then s else ⟨s.observers ++ [o]⟩

/-- TelemetryObservable::remove_observer: hash-set erase. -/
def TelemetryObservable.remove_observer (s : TelemetryObservable) (o : Nat) :
    TelemetryObservable :=
  ⟨s.observers.filter fun x => x ≠ o⟩

/-- Modelled from the spec: the subscriber-count accessor required by the
test suite (test_observer.cpp calls get_observer_count, but the method is
absent from the observable classes in src); per the spec it returns the
current number of registered, not-yet-removed subscriber slots,
independent of liveness. -/
def TelemetryObservable.get_observer_count (s : TelemetryObservable) : Nat :=
  s.observers.length

/-- TelemetryObservable::notify_telemetry: locks every slot's weak
reference, invoking the callback on each slot that is still alive and
silently skipping the rest; the slot set itself is left untouched.
Returns the list of subscribers invoked (in iteration order) together
with the unchanged bus state. -/
def TelemetryObservable.notify_telemetry (s : TelemetryObservable)
    (alive : Nat → Bool) : List Nat × TelemetryObservable :=
  (s.observers.filter alive, s)

/-! ### Dispatch strategies and command queue (strategy.h)  -/

/-- RoundRobinStrategy: one shared cursor, a 64-bit atomic counter. -/
structure RoundRobinStrategy where
  current_index : Nat

/-- RoundRobinStrategy::select_targets.  MOVE and every non-REPORT type
pick the unit at cursor mod count and advance the cursor (fetch_add wraps
at 2 to the 64th); REPORT returns all units with the cursor untouched;
an empty input returns empty immediately. -/
def RoundRobinStrategy.select_targets (s : RoundRobinStrategy)
    (available_units : List UnitId) (command : Command) :
    List UnitId × RoundRobinStrategy :=
  if available_units.isEmpty then ([], s)
  else if command.type = CommandType.MOVE then
    ([available_units.getD (s.current_index % available_units.length) ⟨""⟩],
     ⟨(s.current_index + 1) % 2 ^ 64⟩)
  else if command.type = CommandType.REPORT then
    (available_units, s)
  else
    ([available_units.getD (s.current_index % available_units.length) ⟨""⟩],
     ⟨(s.current_index + 1) % 2 ^ 64⟩)

/-- PriorityStrategy: a map from unit id to integer priority. -/
structure PriorityStrategy where
  unit_priorities : List (UnitId × Int)

/-- PriorityStrategy::set_unit_priority: insert-or-overwrite. -/
def PriorityStrategy.set_unit_priority (s : PriorityStrategy) (unit_id : UnitId)
    (priority : Int) : PriorityStrategy :=
  ⟨go s.unit_priorities⟩
where go : List (UnitId × Int) → List (UnitId × Int)
  | [] => [(unit_id, priority)]
  | p :: rest => if p.1 = unit_id then (unit_id, priority) :: rest else p :: go rest

/-- PriorityStrategy::get_priority_or_default: the stored priority, or 0
for a unit never assigned one. -/
def PriorityStrategy.get_priority_or_default (s : PriorityStrategy)
    (unit_id : UnitId) : Int :=
  ((s.unit_priorities.find? fun p => p.1 = unit_id).map (·.2)).getD 0

/-- PriorityStrategy::select_targets.  The source sorts a copy of the
input with an unstable sort under the strict comparator "priority of a
greater than priority of b"; a sequence is a valid output of that sort
exactly when it is a permutation of the input that is sorted under the
complement relation (priority of a at least priority of b).  The
embedding picks insertion sort under that relation as one admissible
result.  MOVE and every non-REPORT type take the top unit, REPORT takes
the top min(3, count), empty input returns empty immediately. -/
def PriorityStrategy.select_targets (s : PriorityStrategy)
    (available_units : List UnitId) (command : Command) : List UnitId :=
  if available_units.isEmpty then []
  else
    let sorted_units := available_units.insertionSort fun a b =>
      s.get_priority_or_default b ≤ s.get_priority_or_default a
    if command.type = CommandType.MOVE then
      sorted_units.take 1
    else if command.type = CommandType.REPORT then
      sorted_units.take (min 3 sorted_units.length)
    else
      sorted_units.take 1

/-- BroadcastStrategy::select_targets: identity passthrough. -/
def BroadcastStrategy.select_targets (available_units : List UnitId)
    (_command : Command) : List UnitId :=
  available_units

/-- CommandQueue::CommandEntry: owned command, priority tag, enqueue
timestamp on the steady clock. -/
structure CommandEntry where
  command : Command
  priority : Int
  timestamp : Nat

/-- CommandEntry's less-than operator: lower priority first and, on equal
priorities, later timestamp first (so the heap's maximum is the highest
priority with the earliest timestamp). -/
def CommandEntry.lt (a b : CommandEntry) : Bool :=
  if a.priority ≠ b.priority then a.priority < b.priority
  else b.timestamp < a.timestamp

/-- CommandQueue: a binary max-heap under CommandEntry.lt, embedded as
the plain list of its entries plus the steady clock used to stamp
enqueues (the clock is monotone, so enqueue timestamps are distinct). -/
structure CommandQueue where
  entries : List CommandEntry
  clock : Nat

/-- CommandQueue::enqueue: constructs the entry, stamping it with the
current steady-clock reading. -/
def CommandQueue.enqueue (q : CommandQueue) (command : Command) (priority : Int) :
    CommandQueue :=
  ⟨⟨command, priority, q.clock⟩ :: q.entries, q.clock + 1⟩

/-- The heap's top: a maximal entry under CommandEntry.lt. -/
def maxEntry (e : CommandEntry) : List CommandEntry → CommandEntry
  | [] => e
  | x :: xs => maxEntry (if CommandEntry.lt e x then x else e) xs

/-- Remove the first entry carrying the given timestamp. -/
def removeFirstTs (t : Nat) : List CommandEntry → List CommandEntry
  | [] => []
  | x :: xs => if x.timestamp = t then xs else x :: removeFirstTs t xs

/-- CommandQueue::dequeue: null on an empty queue, otherwise pops the
heap's top entry and returns its command. -/
def CommandQueue.dequeue (q : CommandQueue) : Option Command × CommandQueue :=
  match q.entries with
  | [] => (none, q)
  | x :: xs =>
    let top := maxEntry x xs
    (some top.command, ⟨removeFirstTs top.timestamp (x :: xs), q.clock⟩)

/-- CommandQueue::empty. -/
def CommandQueue.isEmpty (q : CommandQueue) : Bool :=
  q.entries.isEmpty

/-- CommandQueue::size. -/
def CommandQueue.size (q : CommandQueue) : Nat :=
  q.entries.length

/-! ### Helper lemmas -/

theorem Json.toInt_intCast (n : Int) : Json.toInt (.num (n : Rat)) = .ok n := by
  simp [Json.toInt, Rat.num_intCast, Rat.den_intCast, Int.tdiv_one]

theorem Json.toInt_natCast (n : Nat) : Json.toInt (.num (n : Rat)) = .ok n := by
  have : ((n : Int) : Rat) = (n : Rat) := by push_cast; ring
  rw [← this, Json.toInt_intCast]

/-- Round trip for an arbitrary command: decoding an encoded command
succeeds and rebuilds the target, type and payload, with a fresh id and a
fresh timestamp. -/
theorem Command.from_json_to_json (c : Command) (now ctr : Nat) :
    Command.from_json c.to_json now ctr =
      .ok (some ⟨generate_id ctr, c.target_id, c.type, c.payload, now⟩,
           (ctr + 1) % 2 ^ 64) := by
  simp [Command.to_json, Command.from_json, Json.containsKey, Json.find?,
        Json.atConst, Json.valueJson, Json.toStr, Json.toInt_intCast, Res.bind,
        Command.create, List.lookup]

end ccsim

namespace ccsim

/-! ### Claims -/

/-- C10: the wire decoders validate field presence but not enum range:
ProtocolMessage decoding stores the raw integer cast of any type tag, and
Command and TelemetryData decoding likewise accept any integer type or
status value, so decoded objects can carry enum values outside their
declared enumerations. -/
theorem C10_decoders_accept_out_of_range_enums :
    (∀ (n : Int) (s : String),
       ProtocolMessage.from_json (.obj [("type", .num (n : Rat)), ("payload", .str s)])
         = .ok (some ⟨⟨n⟩, s⟩)) ∧
    (∀ (n : Int) (t : String) (now counter : Nat),
       Command.from_json (.obj [("target_id", .str t), ("type", .num (n : Rat))]) now counter
         = .ok (some ⟨generate_id counter, ⟨t⟩, ⟨n⟩, .null, now⟩, (counter + 1) % 2 ^ 64)) ∧
    (∀ (n : Int) (uid : String) (x y z : Rat) (now : Int),
       TelemetryData.from_json
         (.obj [("unit_id", .str uid),
                ("position", .obj [("x", .num x), ("y", .num y), ("z", .num z)]),
                ("status", .num (n : Rat))]) now
         = .ok ⟨⟨uid⟩, ⟨x, y, z⟩, ⟨n⟩, 100, 0, 0, "", now⟩) := by
  refine ⟨fun n s => ?_, fun n t now counter => ?_, fun n uid x y z now => ?_⟩
  · simp [ProtocolMessage.from_json, Json.containsKey, Json.find?, Json.atConst,
          Json.toStr, Json.toInt_intCast, Res.bind, List.lookup]
  · simp [Command.from_json, Json.containsKey, Json.find?, Json.atConst,
          Json.valueJson, Json.toStr, Json.toInt_intCast, Res.bind,
          Command.create, List.lookup]
  · simp [TelemetryData.from_json, Json.containsKey, Json.find?, Json.atConst,
          Json.atMut, Json.toStr, Json.toNum, Json.toInt_intCast,
          Json.valueNum, Json.valueStr, Res.bind, List.lookup]

/-- C6: telemetry decoding fills the documented defaults when only the
required fields are present, preserves every field exactly when all are
present, and the report envelope decodes to null when the type tag is
absent, is a string other than "telemetry", or the data field is
absent. -/
theorem C6_telemetry_decode_defaults_and_tag :
    (∀ (uid : String) (x y z : Rat) (st : Int) (now : Int),
       TelemetryData.from_json
         (.obj [("unit_id", .str uid),
                ("position", .obj [("x", .num x), ("y", .num y), ("z", .num z)]),
                ("status", .num (st : Rat))]) now
         = .ok ⟨⟨uid⟩, ⟨x, y, z⟩, ⟨st⟩, 100, 0, 0, "", now⟩) ∧
    (∀ (uid : String) (x y z : Rat) (st : Int) (b cp mem : Rat) (lc : String)
       (ts now : Int),
       TelemetryData.from_json
         (.obj [("unit_id", .str uid),
                ("position", .obj [("x", .num x), ("y", .num y), ("z", .num z)]),
                ("status", .num (st : Rat)),
                ("battery_level", .num b), ("cpu_usage", .num cp),
                ("memory_usage", .num mem), ("last_command_id", .str lc),
                ("timestamp", .num (ts : Rat))]) now
         = .ok ⟨⟨uid⟩, ⟨x, y, z⟩, ⟨st⟩, b, cp, mem, lc, ts⟩) ∧
    (∀ (kvs : List (String × Json)) (now : Int), kvs.lookup "type" = none →
       TelemetryReport.from_json (.obj kvs) now = .ok none) ∧
    (∀ (kvs : List (String × Json)) (t : String) (now : Int), t ≠ "telemetry" →
       kvs.lookup "type" = some (.str t) →
       TelemetryReport.from_json (.obj kvs) now = .ok none) ∧
    (∀ (kvs : List (String × Json)) (now : Int),
       kvs.lookup "type" = some (.str "telemetry") → kvs.lookup "data" = none →
       TelemetryReport.from_json (.obj kvs) now = .ok none) := by
  refine ⟨fun uid x y z st now => ?_, fun uid x y z st b cp mem lc ts now => ?_,
          fun kvs now h => ?_, fun kvs t now ht h => ?_, fun kvs now h hd => ?_⟩
  · simp [TelemetryData.from_json, Json.containsKey, Json.find?, Json.atConst,
          Json.atMut, Json.toStr, Json.toNum, Json.toInt_intCast,
          Json.valueNum, Json.valueStr, Res.bind, List.lookup]
  · simp [TelemetryData.from_json, Json.containsKey, Json.find?, Json.atConst,
          Json.atMut, Json.toStr, Json.toNum, Json.toInt_intCast,
          Json.valueNum, Json.valueStr, Res.bind, List.lookup]
  · simp [TelemetryReport.from_json, Json.valueStr, Json.containsKey, Json.find?,
          Res.bind, h]
  · simp [TelemetryReport.from_json, Json.valueStr, Json.containsKey, Json.find?,
          Res.bind, h, Json.toStr, ht]
  · simp [TelemetryReport.from_json, Json.valueStr, Json.containsKey, Json.find?,
          Res.bind, h, hd, Json.toStr]

/-- C6 witness: the three hypothesis-guarded envelope cases at concrete
documents. -/
theorem C6_telemetry_decode_defaults_and_tag_witness :
    (TelemetryReport.from_json (.obj [("data", .obj [])]) 0 = .ok none) ∧
    (TelemetryReport.from_json (.obj [("type", .str "status")]) 0 = .ok none) ∧
    (TelemetryReport.from_json (.obj [("type", .str "telemetry")]) 0 = .ok none) :=
  ⟨C6_telemetry_decode_defaults_and_tag.2.2.1 [("data", .obj [])] 0 rfl,
   C6_telemetry_decode_defaults_and_tag.2.2.2.1 [("type", .str "status")] "status" 0
     (by decide) rfl,
   C6_telemetry_decode_defaults_and_tag.2.2.2.2 [("type", .str "telemetry")] 0
     rfl rfl⟩

/-- C4: for every command built by the Move, Report or Alert constructor,
decoding its encoding succeeds and preserves the target id, the type and
the payload document; decoding a document missing target_id or type
yields no value. -/
theorem C4_command_json_round_trip :
    (∀ (tgt : UnitId) (dest : Position) (now ctr now' ctr' : Nat),
       ∃ d rest,
         Command.from_json (MoveCommand.create tgt dest now ctr).1.to_json now' ctr'
           = .ok (some d, rest) ∧
         d.target_id = (MoveCommand.create tgt dest now ctr).1.target_id ∧
         d.type = (MoveCommand.create tgt dest now ctr).1.type ∧
         d.payload = (MoveCommand.create tgt dest now ctr).1.payload) ∧
    (∀ (tgt : UnitId) (now ctr now' ctr' : Nat),
       ∃ d rest,
         Command.from_json (ReportCommand.create tgt now ctr).1.to_json now' ctr'
           = .ok (some d, rest) ∧
         d.target_id = (ReportCommand.create tgt now ctr).1.target_id ∧
         d.type = (ReportCommand.create tgt now ctr).1.type ∧
         d.payload = (ReportCommand.create tgt now ctr).1.payload) ∧
    (∀ (tgt : UnitId) (msg : String) (sev : Int) (now ctr now' ctr' : Nat),
       ∃ d rest,
         Command.from_json (AlertCommand.create tgt msg sev now ctr).1.to_json now' ctr'
           = .ok (some d, rest) ∧
         d.target_id = (AlertCommand.create tgt msg sev now ctr).1.target_id ∧
         d.type = (AlertCommand.create tgt msg sev now ctr).1.type ∧
         d.payload = (AlertCommand.create tgt msg sev now ctr).1.payload) ∧
    (∀ (j : Json) (now ctr : Nat),
       j.containsKey "target_id" = false ∨ j.containsKey "type" = false →
       Command.from_json j now ctr = .ok (none, ctr)) := by
  refine ⟨fun tgt dest now ctr now' ctr' => ?_, fun tgt now ctr now' ctr' => ?_,
          fun tgt msg sev now ctr now' ctr' => ?_, fun j now ctr h => ?_⟩
  · exact ⟨_, _, Command.from_json_to_json _ now' ctr', rfl, rfl, rfl⟩
  · exact ⟨_, _, Command.from_json_to_json _ now' ctr', rfl, rfl, rfl⟩
  · exact ⟨_, _, Command.from_json_to_json _ now' ctr', rfl, rfl, rfl⟩
  · rcases h with h | h <;> simp [Command.from_json, h]

/-- C4 witness: the hypothesis-guarded missing-field case at concrete
documents, plus one concrete round trip. -/
theorem C4_command_json_round_trip_witness :
    (Command.from_json (.obj [("type", .num 0)]) 3 4 = .ok (none, 4)) ∧
    (Command.from_json (.obj [("target_id", .str "u")]) 3 4 = .ok (none, 4)) ∧
    (∃ d rest,
       Command.from_json (ReportCommand.create ⟨"u"⟩ 0 0).1.to_json 1 1
         = .ok (some d, rest) ∧
       d.target_id = (ReportCommand.create ⟨"u"⟩ 0 0).1.target_id ∧
       d.type = (ReportCommand.create ⟨"u"⟩ 0 0).1.type ∧
       d.payload = (ReportCommand.create ⟨"u"⟩ 0 0).1.payload) :=
  ⟨C4_command_json_round_trip.2.2.2 _ 3 4 (Or.inl (by decide)),
   C4_command_json_round_trip.2.2.2 _ 3 4 (Or.inr (by decide)),
   C4_command_json_round_trip.2.1 ⟨"u"⟩ 0 0 1 1⟩

/-- C7: the claim asserts that the protocol handler's deserializers never
let a failure escape; it holds for commands and envelopes, but a
telemetry document whose data object is present while a required field
(unit_id, position or status) is missing is read through the JSON
library's const bracket accessor, whose behavior for a missing key is an
assertion failure rather than a catchable exception, so deserialization
neither returns a null result nor throws — it dies inside the library.
This theorem evaluates the code at the failing input. -/
theorem C7_deserialize_telemetry_crashes_on_missing_required_fields :
    JsonProtocolHandler.deserialize_telemetry
      (some (.obj [("type", .str "telemetry"), ("data", .obj [])])) 0
      = .crash := by
  rfl

/-- C2: round-robin dispatch — REPORT returns the whole non-empty list
with the cursor untouched, MOVE and every other type return the single
unit at cursor mod count and advance the cursor by one (modulo the 64-bit
wrap of the atomic), and an empty input yields an empty result with the
cursor untouched. -/
theorem C2_round_robin_strategy (s : RoundRobinStrategy)
    (available : List UnitId) (c : Command) :
    (available = [] → s.select_targets available c = ([], s)) ∧
    (available ≠ [] → c.type = CommandType.REPORT →
       s.select_targets available c = (available, s)) ∧
    (available ≠ [] → c.type ≠ CommandType.REPORT →
       (s.select_targets available c).1
         = [available.getD (s.current_index % available.length) ⟨""⟩] ∧
       (s.select_targets available c).2.current_index
         = (s.current_index + 1) % 2 ^ 64 ∧
       (s.current_index + 1 < 2 ^ 64 →
          (s.select_targets available c).2.current_index = s.current_index + 1)) := by
  have hne : CommandType.REPORT ≠ CommandType.MOVE := by decide
  refine ⟨fun h => ?_, fun h hr => ?_, fun h hr => ?_⟩
  · simp [RoundRobinStrategy.select_targets, h]
  · have he : available.isEmpty = false := by
      simpa [List.isEmpty_iff] using h
    simp [RoundRobinStrategy.select_targets, he, hr, hne]
  · have he : available.isEmpty = false := by
      simpa [List.isEmpty_iff] using h
    have hsel : s.select_targets available c
        = ([available.getD (s.current_index % available.length) ⟨""⟩],
           ⟨(s.current_index + 1) % 2 ^ 64⟩) := by
      by_cases hm : c.type = CommandType.MOVE <;>
        simp [RoundRobinStrategy.select_targets, he, hm, hr]
    refine ⟨by rw [hsel], by rw [hsel], fun h2 => ?_⟩
    rw [hsel]
    exact Nat.mod_eq_of_lt h2

/-- C2 witness: round robin at a concrete strategy, unit list and
commands. -/
theorem C2_round_robin_strategy_witness :
    ((⟨0⟩ : RoundRobinStrategy).select_targets [⟨"A"⟩, ⟨"B"⟩, ⟨"C"⟩]
        (Command.create ⟨"t"⟩ CommandType.REPORT .null 0 0).1
      = ([⟨"A"⟩, ⟨"B"⟩, ⟨"C"⟩], ⟨0⟩)) ∧
    (((⟨1⟩ : RoundRobinStrategy).select_targets [⟨"A"⟩, ⟨"B"⟩, ⟨"C"⟩]
        (Command.create ⟨"t"⟩ CommandType.MOVE .null 0 0).1).1 = [⟨"B"⟩]) ∧
    ((⟨0⟩ : RoundRobinStrategy).select_targets []
        (Command.create ⟨"t"⟩ CommandType.MOVE .null 0 0).1 = ([], ⟨0⟩)) :=
  ⟨(C2_round_robin_strategy ⟨0⟩ _ _).2.1 (by decide) rfl,
   by
     have h := ((C2_round_robin_strategy ⟨1⟩ [⟨"A"⟩, ⟨"B"⟩, ⟨"C"⟩]
       (Command.create ⟨"t"⟩ CommandType.MOVE .null 0 0).1).2.2 (by decide)
       (by decide)).1
     simpa using h,
   (C2_round_robin_strategy ⟨0⟩ _ _).1 rfl⟩

/-- Registry lookup after a keyed in-place update. -/
theorem UnitRegistry.get_unit_mapped (l : List (UnitId × Unit)) (id : UnitId)
    (f : Unit → Unit) :
    (UnitRegistry.mk (l.map fun p => if p.1 = id then (p.1, f p.2) else p)).get_unit id
      = ((UnitRegistry.mk l).get_unit id).map f := by
  induction l with
  | nil => simp [UnitRegistry.get_unit]
  | cons p rest ih =>
    by_cases hp : p.1 = id
    · simp [UnitRegistry.get_unit, List.find?, hp]
    · simpa [UnitRegistry.get_unit, List.find?, hp] using ih

/-- Dropping a key that no entry carries is the identity. -/
theorem assocDrop_of_absent (id : UnitId) (l : List (UnitId × Unit))
    (h : ∀ p ∈ l, p.1 ≠ id) : assocDrop id l = l := by
  induction l with
  | nil => rfl
  | cons p rest ih =>
    have hp : p.1 ≠ id := h p (by simp)
    simp only [assocDrop, if_neg hp]
    rw [ih fun q hq => h q (by simp [hq])]

/-- C9: registry updates and unregistration are silent no-ops on an
unregistered id, lookup of an absent id yields no value, and on a
registered id the status and position updates write the field and refresh
the unit's last-update timestamp. -/
theorem C9_registry_noops_and_updates (r : UnitRegistry) (id : UnitId)
    (st : UnitStatus) (pos : Position) (now : Nat) :
    (r.get_unit id = none →
       r.update_unit_status id st now = r ∧
       r.update_unit_position id pos now = r ∧
       r.unregister_unit id = r) ∧
    (∀ u, r.get_unit id = some u →
       (r.update_unit_status id st now).get_unit id
         = some { u with status := st, last_update := now } ∧
       (r.update_unit_position id pos now).get_unit id
         = some { u with position := pos, last_update := now }) := by
  constructor
  · intro h
    refine ⟨?_, ?_, ?_⟩
    · simp [UnitRegistry.update_unit_status, h]
    · simp [UnitRegistry.update_unit_position, h]
    · have hfind : r.units.find? (fun p => decide (p.1 = id)) = none := by
        have h' := h
        simp only [UnitRegistry.get_unit] at h'
        exact Option.map_eq_none'.mp h'
      have hall : ∀ p ∈ r.units, p.1 ≠ id := by
        intro p hp
        have h2 := List.find?_eq_none.mp hfind p hp
        simpa using h2
      obtain ⟨l⟩ := r
      simp only [UnitRegistry.unregister_unit]
      rw [assocDrop_of_absent id l hall]
  · intro u h
    constructor
    · simp only [UnitRegistry.update_unit_status, h]
      obtain ⟨l⟩ := r
      rw [UnitRegistry.get_unit_mapped l id (fun v => v.set_status st now), h]
      rfl
    · simp only [UnitRegistry.update_unit_position, h]
      obtain ⟨l⟩ := r
      rw [UnitRegistry.get_unit_mapped l id (fun v => v.set_position pos now), h]
      rfl

/-- C9 witness: the silent no-op and the refreshing update at a concrete
registry. -/
theorem C9_registry_noops_and_updates_witness :
    ((UnitRegistry.mk [(⟨"a"⟩, ⟨⟨"a"⟩, ⟨0, 0, 0⟩, UnitStatus.IDLE, 3⟩)]).update_unit_status
        ⟨"b"⟩ UnitStatus.BUSY 9
      = UnitRegistry.mk [(⟨"a"⟩, ⟨⟨"a"⟩, ⟨0, 0, 0⟩, UnitStatus.IDLE, 3⟩)]) ∧
    ((UnitRegistry.mk [(⟨"a"⟩, ⟨⟨"a"⟩, ⟨0, 0, 0⟩, UnitStatus.IDLE, 3⟩)]).update_unit_status
        ⟨"a"⟩ UnitStatus.BUSY 9).get_unit ⟨"a"⟩
      = some ⟨⟨"a"⟩, ⟨0, 0, 0⟩, UnitStatus.BUSY, 9⟩ :=
  ⟨((C9_registry_noops_and_updates
       (UnitRegistry.mk [(⟨"a"⟩, ⟨⟨"a"⟩, ⟨0, 0, 0⟩, UnitStatus.IDLE, 3⟩)])
       ⟨"b"⟩ UnitStatus.BUSY ⟨0, 0, 0⟩ 9).1 rfl).1,
   ((C9_registry_noops_and_updates
       (UnitRegistry.mk [(⟨"a"⟩, ⟨⟨"a"⟩, ⟨0, 0, 0⟩, UnitStatus.IDLE, 3⟩)])
       ⟨"a"⟩ UnitStatus.BUSY ⟨0, 0, 0⟩ 9).2
      ⟨⟨"a"⟩, ⟨0, 0, 0⟩, UnitStatus.IDLE, 3⟩ rfl).1⟩

/-- Removing one element of a duplicate-free list by filtering shortens
it by exactly one. -/
theorem length_filter_ne_of_nodup (l : List Nat) (o : Nat) (hl : l.Nodup)
    (ho : o ∈ l) : (l.filter fun x => x ≠ o).length = l.length - 1 := by
  induction l with
  | nil => cases ho
  | cons a rest ih =>
    rw [List.nodup_cons] at hl
    rcases List.mem_cons.mp ho with hoa | horest
    · have hfl : (rest.filter fun x => x ≠ o) = rest :=
        List.filter_eq_self.mpr fun b hb => by
          simp only [ne_eq, decide_eq_true_eq]
          intro hbo
          exact hl.1 (hoa ▸ hbo ▸ hb)
      have hpa : (decide (a ≠ o)) = false := by simp [← hoa]
      rw [List.filter_cons, hpa, if_neg Bool.false_ne_true, hfl]
      simp
    · have hpa : (decide (a ≠ o)) = true := by
        simp only [ne_eq, decide_eq_true_eq]
        intro hao
        exact hl.1 (hao ▸ horest)
      have hrest1 : 1 ≤ rest.length :=
        List.length_pos.mpr (List.ne_nil_of_mem horest)
      rw [List.filter_cons, hpa]
      simp only [if_true, List.length_cons, ih hl.2 horest]
      omega

/-- C8: the subscriber-count accessor counts registered, not-yet-removed
slots regardless of liveness; notification invokes each live subscriber
exactly once, silently skips released subscribers, and leaves the slot
set (and hence the count) untouched. -/
theorem C8_observer_bus_count_and_notify (s : TelemetryObservable)
    (alive : Nat → Bool) (h : s.observers.Nodup) :
    ((s.notify_telemetry alive).2 = s) ∧
    (∀ o, o ∈ s.observers → alive o = true →
       (s.notify_telemetry alive).1.count o = 1) ∧
    (∀ o, alive o = false → o ∉ (s.notify_telemetry alive).1) ∧
    (∀ o, o ∉ s.observers → o ∉ (s.notify_telemetry alive).1) ∧
    ((s.notify_telemetry alive).2.get_observer_count = s.get_observer_count) ∧
    (∀ o, o ∉ s.observers →
       (s.add_observer o).get_observer_count = s.get_observer_count + 1) ∧
    (∀ o, o ∈ s.observers →
       (s.add_observer o).get_observer_count = s.get_observer_count) ∧
    (∀ o, o ∈ s.observers →
       (s.remove_observer o).get_observer_count = s.get_observer_count - 1) ∧
    (∀ o, o ∉ s.observers →
       (s.remove_observer o).get_observer_count = s.get_observer_count) := by
  refine ⟨rfl, fun o ho ha => ?_, fun o ha => ?_, fun o ho => ?_, rfl,
          fun o ho => ?_, fun o ho => ?_, fun o ho => ?_, fun o ho => ?_⟩
  · exact List.count_eq_one_of_mem (h.filter alive)
      (List.mem_filter.mpr ⟨ho, ha⟩)
  · intro hmem
    have h2 := (List.mem_filter.mp hmem).2
    rw [ha] at h2
    exact Bool.false_ne_true h2
  · intro hmem
    exact ho (List.mem_filter.mp hmem).1
  · simp [TelemetryObservable.add_observer, ho,
          TelemetryObservable.get_observer_count]
  · simp [TelemetryObservable.add_observer, ho,
          TelemetryObservable.get_observer_count]
  · exact length_filter_ne_of_nodup s.observers o h ho
  · simp only [TelemetryObservable.remove_observer,
               TelemetryObservable.get_observer_count]
    rw [List.filter_eq_self.mpr]
    intro a ha
    simp only [ne_eq, decide_eq_true_eq]
    exact fun hao => ho (hao ▸ ha)

/-- The priority table A=10, B=5, C=1 from the spec's sixth property. -/
def prioTableABC : PriorityStrategy :=
  (((⟨[]⟩ : PriorityStrategy).set_unit_priority ⟨"A"⟩ 10).set_unit_priority
      ⟨"B"⟩ 5).set_unit_priority ⟨"C"⟩ 1

/-- The same table with a fourth unit D=8. -/
def prioTableABCD : PriorityStrategy :=
  prioTableABC.set_unit_priority ⟨"D"⟩ 8

/-- A MOVE command for exercising the strategies. -/
def sampleMove : Command :=
  (Command.create ⟨"t"⟩ CommandType.MOVE .null 0 0).1

/-- A REPORT command for exercising the strategies. -/
def sampleReport : Command :=
  (Command.create ⟨"t"⟩ CommandType.REPORT .null 0 0).1

/-- C3: priority dispatch sorts a copy of the candidates in descending
priority (default 0): REPORT takes the top min(3, count) in that order,
MOVE and every other type take the single top-priority unit, empty input
yields empty; concretely, with A=10, B=5, C=1 a MOVE selection returns
[A], and with D=8 added a REPORT selection returns [A, D, B]. -/
theorem C3_priority_strategy (s : PriorityStrategy) (available : List UnitId)
    (c : Command) :
    (available = [] → s.select_targets available c = []) ∧
    (available ≠ [] → ∃ sorted : List UnitId,
       sorted.Perm available ∧
       sorted.Sorted (fun a b =>
         s.get_priority_or_default b ≤ s.get_priority_or_default a) ∧
       (c.type = CommandType.REPORT →
          s.select_targets available c = sorted.take (min 3 sorted.length)) ∧
       (c.type ≠ CommandType.REPORT → ∃ top,
          s.select_targets available c = [top] ∧ top ∈ available ∧
          ∀ y ∈ available,
            s.get_priority_or_default y ≤ s.get_priority_or_default top)) ∧
    (prioTableABC.select_targets [⟨"B"⟩, ⟨"A"⟩, ⟨"C"⟩] sampleMove = [⟨"A"⟩]) ∧
    (prioTableABCD.select_targets [⟨"B"⟩, ⟨"A"⟩, ⟨"C"⟩, ⟨"D"⟩] sampleReport
       = [⟨"A"⟩, ⟨"D"⟩, ⟨"B"⟩]) := by
  have hne : CommandType.REPORT ≠ CommandType.MOVE := by decide
  haveI : IsTotal UnitId (fun a b =>
      s.get_priority_or_default b ≤ s.get_priority_or_default a) :=
    ⟨fun a b => le_total _ _⟩
  haveI : IsTrans UnitId (fun a b =>
      s.get_priority_or_default b ≤ s.get_priority_or_default a) :=
    ⟨fun a b c hab hbc => le_trans hbc hab⟩
  refine ⟨fun h => by simp [PriorityStrategy.select_targets, h], fun h => ?_,
          by decide, by decide⟩
  have he : available.isEmpty = false := by
    simpa [List.isEmpty_iff] using h
  refine ⟨available.insertionSort _,
          List.perm_insertionSort _ available,
          List.sorted_insertionSort _ available, fun hrep => ?_, fun hrep => ?_⟩
  · simp [PriorityStrategy.select_targets, he, hrep, hne]
  · have hsel : s.select_targets available c
        = (available.insertionSort fun a b =>
            s.get_priority_or_default b ≤ s.get_priority_or_default a).take 1 := by
      by_cases hm : c.type = CommandType.MOVE <;>
        simp [PriorityStrategy.select_targets, he, hm, hrep]
    rcases hs : available.insertionSort fun a b =>
        s.get_priority_or_default b ≤ s.get_priority_or_default a with _ | ⟨top, tail⟩
    · exfalso
      have := List.perm_insertionSort (fun a b =>
        s.get_priority_or_default b ≤ s.get_priority_or_default a) available
      rw [hs] at this
      exact h this.symm.eq_nil
    · have hmemsort : ∀ y ∈ available, y = top ∨ y ∈ tail := by
        intro y hy
        have := (List.perm_insertionSort (fun a b =>
          s.get_priority_or_default b ≤ s.get_priority_or_default a) available).symm.mem_iff.mp hy
        rw [hs] at this
        simpa using this
      have hsorted := List.sorted_insertionSort (fun a b =>
        s.get_priority_or_default b ≤ s.get_priority_or_default a) available
      rw [hs] at hsorted
      have htopmem : top ∈ available := by
        have := (List.perm_insertionSort (fun a b =>
          s.get_priority_or_default b ≤ s.get_priority_or_default a) available).mem_iff.mp
          (by rw [hs]; exact List.mem_cons_self top tail)
        exact this
      refine ⟨top, ?_, htopmem, ?_⟩
      · rw [hsel, hs]
        rfl
      · intro y hy
        rcases hmemsort y hy with rfl | hyt
        · exact le_refl _
        · exact (List.sorted_cons.mp hsorted).1 y hyt

/-- C3 witness: both halves at concrete inputs. -/
theorem C3_priority_strategy_witness :
    ((⟨[]⟩ : PriorityStrategy).select_targets [] sampleMove = []) ∧
    (∃ sorted : List UnitId,
       sorted.Perm [(⟨"B"⟩ : UnitId), ⟨"A"⟩] ∧
       sorted.Sorted (fun a b =>
         prioTableABC.get_priority_or_default b
           ≤ prioTableABC.get_priority_or_default a) ∧
       (sampleMove.type = CommandType.REPORT →
          prioTableABC.select_targets [⟨"B"⟩, ⟨"A"⟩] sampleMove
            = sorted.take (min 3 sorted.length)) ∧
       (sampleMove.type ≠ CommandType.REPORT → ∃ top,
          prioTableABC.select_targets [⟨"B"⟩, ⟨"A"⟩] sampleMove = [top] ∧
          top ∈ [(⟨"B"⟩ : UnitId), ⟨"A"⟩] ∧
          ∀ y ∈ [(⟨"B"⟩ : UnitId), ⟨"A"⟩],
            prioTableABC.get_priority_or_default y
              ≤ prioTableABC.get_priority_or_default top)) :=
  ⟨(C3_priority_strategy ⟨[]⟩ [] sampleMove).1 rfl,
   (C3_priority_strategy prioTableABC [⟨"B"⟩, ⟨"A"⟩] sampleMove).2.1 (by decide)⟩

/-- The comparator unfolded into arithmetic. -/
theorem CommandEntry.lt_iff (a b : CommandEntry) :
    CommandEntry.lt a b = true ↔
      (a.priority < b.priority ∨
        (a.priority = b.priority ∧ b.timestamp < a.timestamp)) := by
  unfold CommandEntry.lt
  by_cases h : a.priority = b.priority <;> simp [h]

/-- The heap top is one of the candidates. -/
theorem maxEntry_mem (e : CommandEntry) (l : List CommandEntry) :
    maxEntry e l = e ∨ maxEntry e l ∈ l := by
  induction l generalizing e with
  | nil => exact Or.inl rfl
  | cons x xs ih =>
    by_cases hlt : CommandEntry.lt e x = true
    · rw [maxEntry, if_pos hlt]
      rcases ih x with h | h
      · exact Or.inr (by rw [h]; exact List.mem_cons_self x xs)
      · exact Or.inr (List.mem_cons_of_mem x h)
    · rw [maxEntry, if_neg hlt]
      rcases ih e with h | h
      · exact Or.inl h
      · exact Or.inr (List.mem_cons_of_mem x h)

/-- No candidate beats the heap top under the comparator. -/
theorem maxEntry_not_lt (e : CommandEntry) (l : List CommandEntry) :
    ∀ y, (y = e ∨ y ∈ l) → CommandEntry.lt (maxEntry e l) y = false := by
  induction l generalizing e with
  | nil =>
    intro y hy
    rcases hy with rfl | h
    · rw [maxEntry, ← Bool.not_eq_true, CommandEntry.lt_iff]
      omega
    · cases h
  | cons x xs ih =>
    intro y hy
    by_cases hlt : CommandEntry.lt e x = true
    · rw [maxEntry, if_pos hlt]
      rcases hy with hye | hyx
      · rw [hye]
        have hMx := ih x x (Or.inl rfl)
        rw [CommandEntry.lt_iff] at hlt
        rw [← Bool.not_eq_true, CommandEntry.lt_iff] at hMx ⊢
        omega
      · rcases List.mem_cons.mp hyx with hxy | hyxs
        · rw [hxy]
          exact ih x x (Or.inl rfl)
        · exact ih x y (Or.inr hyxs)
    · rw [maxEntry, if_neg hlt]
      rcases hy with hye | hyx
      · rw [hye]
        exact ih e e (Or.inl rfl)
      · rcases List.mem_cons.mp hyx with hxy | hyxs
        · rw [hxy]
          have hMe := ih e e (Or.inl rfl)
          rw [CommandEntry.lt_iff] at hlt
          rw [← Bool.not_eq_true, CommandEntry.lt_iff] at hMe ⊢
          omega
        · exact ih e y (Or.inr hyxs)

/-- Removing a member's (unique) timestamp splits the list around that
member. -/
theorem removeFirstTs_split (e : CommandEntry) (l : List CommandEntry)
    (hmem : e ∈ l)
    (hdist : l.Pairwise fun a b => a.timestamp ≠ b.timestamp) :
    ∃ l₁ l₂, l = l₁ ++ e :: l₂ ∧ removeFirstTs e.timestamp l = l₁ ++ l₂ := by
  induction l with
  | nil => cases hmem
  | cons x xs ih =>
    rcases List.mem_cons.mp hmem with rfl | hexs
    · exact ⟨[], xs, rfl, by simp [removeFirstTs]⟩
    · have hx : x.timestamp ≠ e.timestamp :=
        (List.pairwise_cons.mp hdist).1 e hexs
      obtain ⟨l₁, l₂, heq, hrem⟩ := ih hexs (List.pairwise_cons.mp hdist).2
      refine ⟨x :: l₁, l₂, by rw [heq]; rfl, ?_⟩
      simp only [removeFirstTs, if_neg hx, hrem, List.cons_append]

/-- The MOVE command of the spec's queue-ordering property. -/
def queueMove : Command := (Command.create ⟨"u"⟩ CommandType.MOVE .null 0 0).1

/-- The ALERT command of the spec's queue-ordering property. -/
def queueAlert : Command := (Command.create ⟨"u"⟩ CommandType.ALERT .null 0 1).1

/-- The REPORT command of the spec's queue-ordering property. -/
def queueReport : Command := (Command.create ⟨"u"⟩ CommandType.REPORT .null 0 2).1

/-- The queue after enqueuing MOVE at priority 1, ALERT at 10 and REPORT
at 5. -/
def queueScene : CommandQueue :=
  (((⟨[], 0⟩ : CommandQueue).enqueue queueMove 1).enqueue queueAlert 10).enqueue
    queueReport 5

/-- C1: on a queue whose enqueue timestamps are distinct (the steady
clock is monotone across enqueues), dequeue removes and returns the
unique entry with the highest priority, ties broken by the earliest
enqueue timestamp, and returns no value on an empty queue; concretely,
after enqueuing MOVE at 1, ALERT at 10 and REPORT at 5, the dequeues
yield ALERT, REPORT, MOVE and then nothing. -/
theorem C1_command_queue_dequeue (q : CommandQueue)
    (hdist : q.entries.Pairwise fun a b => a.timestamp ≠ b.timestamp) :
    (q.entries = [] → q.dequeue = (none, q)) ∧
    (q.entries ≠ [] → ∃ e l₁ l₂,
       q.dequeue = (some e.command, ⟨l₁ ++ l₂, q.clock⟩) ∧
       q.entries = l₁ ++ e :: l₂ ∧
       ∀ y ∈ q.entries, y.timestamp ≠ e.timestamp →
         y.priority < e.priority ∨
           (y.priority = e.priority ∧ e.timestamp < y.timestamp)) ∧
    (queueScene.dequeue.1.map (·.type) = some CommandType.ALERT) ∧
    (queueScene.dequeue.2.dequeue.1.map (·.type) = some CommandType.REPORT) ∧
    (queueScene.dequeue.2.dequeue.2.dequeue.1.map (·.type)
       = some CommandType.MOVE) ∧
    (queueScene.dequeue.2.dequeue.2.dequeue.2.dequeue.1.map (·.type) = none) := by
  refine ⟨fun h => ?_, fun h => ?_, by decide, by decide, by decide, by decide⟩
  · simp [CommandQueue.dequeue, h]
  · obtain ⟨entries, clock⟩ := q
    rcases entries with _ | ⟨x, xs⟩
    · exact absurd rfl h
    · have hmem : maxEntry x xs ∈ x :: xs := by
        rcases maxEntry_mem x xs with h1 | h1
        · rw [h1]; exact List.mem_cons_self x xs
        · exact List.mem_cons_of_mem x h1
      obtain ⟨l₁, l₂, heq, hrem⟩ :=
        removeFirstTs_split (maxEntry x xs) (x :: xs) hmem hdist
      refine ⟨maxEntry x xs, l₁, l₂, ?_, heq, ?_⟩
      · simp only [CommandQueue.dequeue, hrem]
      · intro y hy hts
        have hnot := maxEntry_not_lt x xs y (by
          rcases List.mem_cons.mp hy with rfl | hm
          · exact Or.inl rfl
          · exact Or.inr hm)
        rw [← Bool.not_eq_true, CommandEntry.lt_iff] at hnot
        omega

/-- C1 witness: the general clause applied to the concrete three-entry
queue. -/
theorem C1_command_queue_dequeue_witness :
    ∃ e l₁ l₂,
      queueScene.dequeue = (some e.command, ⟨l₁ ++ l₂, queueScene.clock⟩) ∧
      queueScene.entries = l₁ ++ e :: l₂ ∧
      ∀ y ∈ queueScene.entries, y.timestamp ≠ e.timestamp →
        y.priority < e.priority ∨
          (y.priority = e.priority ∧ e.timestamp < y.timestamp) :=
  (C1_command_queue_dequeue queueScene (by decide)).2.1 (List.cons_ne_nil _ _)

/-- Decimal digit string of a natural number, most significant first:
a fuel-free restatement of the core numeral printer. -/
def repChars (n : Nat) : List Char :=
  if h : n < 10 then [Nat.digitChar n]
  else repChars (n / 10) ++ [Nat.digitChar (n % 10)]
decreasing_by exact Nat.div_lt_self (by omega) (by omega)

theorem repChars_ne_nil (n : Nat) : repChars n ≠ [] := by
  rw [repChars]
  split
  · exact List.cons_ne_nil _ _
  · exact fun h => List.cons_ne_nil _ _ (List.append_eq_nil.mp h).2

/-- The core numeral printer computes repChars, given enough fuel. -/
theorem toDigitsCore_eq_repChars (fuel : Nat) :
    ∀ n ds, n < fuel → Nat.toDigitsCore 10 fuel n ds = repChars n ++ ds := by
  induction fuel with
  | zero => intro n ds h; omega
  | succ f ih =>
    intro n ds h
    by_cases h10 : n < 10
    · have hdiv : n / 10 = 0 := Nat.div_eq_of_lt h10
      have hmod : n % 10 = n := Nat.mod_eq_of_lt h10
      have hrep : repChars n = [Nat.digitChar n] := by
        rw [repChars, dif_pos h10]
      simp only [Nat.toDigitsCore, hdiv, if_true, hmod, hrep]
      rfl
    · have hdiv : n / 10 ≠ 0 := by
        intro h0
        exact h10 (by omega)
      have hlt : n / 10 < f := by
        have := Nat.div_lt_self (show 0 < n by omega) (show 1 < 10 by omega)
        omega
      have hrep : repChars n = repChars (n / 10) ++ [Nat.digitChar (n % 10)] := by
        rw [repChars, dif_neg h10]
      simp only [Nat.toDigitsCore, hdiv, if_false]
      rw [ih (n / 10) (Nat.digitChar (n % 10) :: ds) hlt, hrep]
      simp

theorem digitChar_inj_lt : ∀ a < 10, ∀ b < 10,
    Nat.digitChar a = Nat.digitChar b → a = b := by decide

/-- The decimal digit string determines the number. -/
theorem repChars_injective : ∀ m n, repChars m = repChars n → m = n := by
  intro m
  induction m using Nat.strong_induction_on with
  | _ m ih =>
    intro n h
    have hem : m < 10 → repChars m = [Nat.digitChar m] := fun hm => by
      rw [repChars, dif_pos hm]
    have hen : n < 10 → repChars n = [Nat.digitChar n] := fun hn => by
      rw [repChars, dif_pos hn]
    have hem2 : ¬m < 10 → repChars m = repChars (m / 10) ++ [Nat.digitChar (m % 10)] :=
      fun hm => by rw [repChars, dif_neg hm]
    have hen2 : ¬n < 10 → repChars n = repChars (n / 10) ++ [Nat.digitChar (n % 10)] :=
      fun hn => by rw [repChars, dif_neg hn]
    by_cases hm : m < 10 <;> by_cases hn : n < 10
    · rw [hem hm, hen hn] at h
      simp only [List.cons.injEq, and_true] at h
      exact digitChar_inj_lt m hm n hn h
    · exfalso
      rw [hem hm, hen2 hn] at h
      have hlen := congrArg List.length h
      simp only [List.length_cons, List.length_nil, List.length_append] at hlen
      have := List.length_pos.mpr (repChars_ne_nil (n / 10))
      omega
    · exfalso
      rw [hem2 hm, hen hn] at h
      have hlen := congrArg List.length h
      simp only [List.length_cons, List.length_nil, List.length_append] at hlen
      have := List.length_pos.mpr (repChars_ne_nil (m / 10))
      omega
    · rw [hem2 hm, hen2 hn] at h
      obtain ⟨h1, h2⟩ := List.append_inj' h (by simp)
      have hdiv : m / 10 = n / 10 :=
        ih (m / 10) (Nat.div_lt_self (by omega) (by omega)) (n / 10) h1
      have hmod : m % 10 = n % 10 := by
        simp only [List.cons.injEq] at h2
        exact digitChar_inj_lt (m % 10) (Nat.mod_lt m (by omega))
          (n % 10) (Nat.mod_lt n (by omega)) h2.1
      have hm10 := Nat.div_add_mod m 10
      have hn10 := Nat.div_add_mod n 10
      omega

/-- The decimal numeral string determines the number. -/
theorem Nat.repr_injective : ∀ m n : Nat, Nat.repr m = Nat.repr n → m = n := by
  intro m n h
  apply repChars_injective
  have hdata := congrArg String.data h
  have hm : (Nat.repr m).data = repChars m := by
    show (List.asString (Nat.toDigits 10 m)).data = repChars m
    rw [show Nat.toDigits 10 m = Nat.toDigitsCore 10 (m + 1) m [] from rfl,
        toDigitsCore_eq_repChars (m + 1) m [] (by omega)]
    rw [List.append_nil]
    rfl
  have hn : (Nat.repr n).data = repChars n := by
    show (List.asString (Nat.toDigits 10 n)).data = repChars n
    rw [show Nat.toDigits 10 n = Nat.toDigitsCore 10 (n + 1) n [] from rfl,
        toDigitsCore_eq_repChars (n + 1) n [] (by omega)]
    rw [List.append_nil]
    rfl
  rw [hm, hn] at hdata
  exact hdata

/-- Distinct counter values give distinct generated command ids. -/
theorem generate_id_injective (m n : Nat) (h : m ≠ n) :
    generate_id m ≠ generate_id n := by
  intro heq
  apply h
  apply Nat.repr_injective
  apply String.ext
  have hdata := congrArg String.data heq
  simp only [generate_id] at hdata
  rw [String.data_append, String.data_append] at hdata
  exact List.append_cancel_left hdata

/-- C5: decoding ignores the wire id and timestamp — the decoded command
draws a fresh id from the shared process-wide counter and a fresh
creation time, so whenever the decode happens at a counter value other
than the one that minted the original command, the decoded id differs
from the original's id, which is also exactly the id recorded in the wire
document. -/
theorem C5_decode_generates_fresh_id (tgt : UnitId) (ty : CommandType)
    (pl : Json) (now ctr now' m : Nat) (hm : m ≠ ctr) :
    Command.from_json (Command.create tgt ty pl now ctr).1.to_json now' m
      = .ok (some ⟨generate_id m, tgt, ty, pl, now'⟩, (m + 1) % 2 ^ 64) ∧
    generate_id m ≠ (Command.create tgt ty pl now ctr).1.id ∧
    (Command.create tgt ty pl now ctr).1.to_json.find? "id"
      = some (.str (Command.create tgt ty pl now ctr).1.id) := by
  refine ⟨?_, ?_, ?_⟩
  · exact Command.from_json_to_json (Command.create tgt ty pl now ctr).1 now' m
  · exact generate_id_injective m ctr hm
  · simp [Command.create, Command.to_json, Json.find?, List.lookup]

/-- C5 witness: decode at counter 5 of a command minted at counter 0. -/
theorem C5_decode_generates_fresh_id_witness :
    Command.from_json (Command.create ⟨"u"⟩ CommandType.MOVE .null 0 0).1.to_json 9 5
      = .ok (some ⟨generate_id 5, ⟨"u"⟩, CommandType.MOVE, .null, 9⟩, (5 + 1) % 2 ^ 64) ∧
    generate_id 5 ≠ (Command.create ⟨"u"⟩ CommandType.MOVE .null 0 0).1.id ∧
    (Command.create ⟨"u"⟩ CommandType.MOVE .null 0 0).1.to_json.find? "id"
      = some (.str (Command.create ⟨"u"⟩ CommandType.MOVE .null 0 0).1.id) :=
  C5_decode_generates_fresh_id ⟨"u"⟩ CommandType.MOVE .null 0 0 9 5 (by decide)

/-- C8 witness: a two-slot bus with one released subscriber. -/
theorem C8_observer_bus_count_and_notify_witness :
    ((TelemetryObservable.mk [4, 7]).notify_telemetry (fun o => o == 4)).2
        = TelemetryObservable.mk [4, 7] ∧
    ((TelemetryObservable.mk [4, 7]).notify_telemetry (fun o => o == 4)).1.count 4 = 1 ∧
    (7 ∉ ((TelemetryObservable.mk [4, 7]).notify_telemetry (fun o => o == 4)).1) ∧
    ((TelemetryObservable.mk [4, 7]).notify_telemetry
        (fun o => o == 4)).2.get_observer_count
      = (TelemetryObservable.mk [4, 7]).get_observer_count :=
  ⟨(C8_observer_bus_count_and_notify ⟨[4, 7]⟩ (fun o => o == 4) (by decide)).1,
   (C8_observer_bus_count_and_notify ⟨[4, 7]⟩ (fun o => o == 4) (by decide)).2.1 4
     (by decide) (by decide),
   (C8_observer_bus_count_and_notify ⟨[4, 7]⟩ (fun o => o == 4) (by decide)).2.2.1 7
     (by decide),
   (C8_observer_bus_count_and_notify ⟨[4, 7]⟩ (fun o => o == 4) (by decide)).2.2.2.2.1⟩

end ccsim
